import Mathlib

/-! The header `machine/asm_mips64.h`.

A shallow embedding of the assembler header `src/machine/asm_mips64.h`: the
coprocessor-0 register indices, the Status Register flags and the `TLBWI`
instruction alias, followed by the properties proved about them.
-/

namespace AsmMips64

/-! ## The defined names, in the order of the header -/

/-- Index of TLB Entry -/
def C0_INDEX : Nat := 0
/-- TLB entry, first PFN -/
def C0_ENTRYLO0 : Nat := 2
/-- TLB entry, second PFN -/
def C0_ENTRYLO1 : Nat := 3
/-- Size of TLB Entries -/
def C0_PAGEMASK : Nat := 5
/-- Address that occurred an error -/
def C0_BADVADDR : Nat := 8
/-- Timer Count Register -/
def C0_COUNT : Nat := 9
/-- VPN and ASID of two TLB entry -/
def C0_ENTRYHI : Nat := 10
/-- Timer Compare Register -/
def C0_COMPARE : Nat := 11
/-- Status Register -/
def C0_SR : Nat := 12
/-- Last exception description -/
def C0_CAUSE : Nat := 13
/-- Exception error address -/
def C0_EPC : Nat := 14
/-- Processor Revision ID -/
def C0_PRID : Nat := 15
/-- CPU configuration -/
def C0_CONFIG : Nat := 16
/-- Watchpoint -/
def C0_WATCHLO : Nat := 18

/-- Mark CP1 as usable -/
def SR_CU1 : Nat := 0x20000000
/-- Enable MIPS III FP registers -/
def SR_FR : Nat := 0x04000000
/-- Controls location of exception vectors -/
def SR_BEV : Nat := 0x00400000
/-- Mark soft reset (clear parity error) -/
def SR_PE : Nat := 0x00100000

/-- An assembler statement as it occurs in the replacement list of `TLBWI`:
the mnemonic `NOOP`, or the directive `WORD $imm` that emits a raw 32-bit
machine word. -/
inductive Instr where
  | NOOP : Instr
  | WORD (imm : Nat) : Instr
  deriving DecidableEq, Repr

/-- Prepend NOOP to avert CP0 hazards: the replacement list
`NOOP; WORD $0x42000002`, as the sequence of its `;`-separated statements. -/
def TLBWI : List Instr := [Instr.NOOP, Instr.WORD 0x42000002]

/-- Replacement list of a `#define` line: an integer literal, or a sequence
of `;`-separated assembler statements. -/
inductive Replacement where
  | int (value : Nat) : Replacement
  | insns (stmts : List Instr) : Replacement
  deriving DecidableEq, Repr

/-- One `#define` line. `params` is `none` for an object-like definition
(`#define NAME replacement`), and the parameter names for a function-like
one (`#define NAME(a, b) replacement`). -/
structure Define where
  name : String
  params : Option (List String)
  body : Replacement
  deriving DecidableEq, Repr

/-- The header: every `#define` line of `asm_mips64.h`, top to bottom. -/
def header : List Define :=
  [ ⟨"C0_INDEX", none, .int C0_INDEX⟩,
    ⟨"C0_ENTRYLO0", none, .int C0_ENTRYLO0⟩,
    ⟨"C0_ENTRYLO1", none, .int C0_ENTRYLO1⟩,
    ⟨"C0_PAGEMASK", none, .int C0_PAGEMASK⟩,
    ⟨"C0_BADVADDR", none, .int C0_BADVADDR⟩,
    ⟨"C0_COUNT", none, .int C0_COUNT⟩,
    ⟨"C0_ENTRYHI", none, .int C0_ENTRYHI⟩,
    ⟨"C0_COMPARE", none, .int C0_COMPARE⟩,
    ⟨"C0_SR", none, .int C0_SR⟩,
    ⟨"C0_CAUSE", none, .int C0_CAUSE⟩,
    ⟨"C0_EPC", none, .int C0_EPC⟩,
    ⟨"C0_PRID", none, .int C0_PRID⟩,
    ⟨"C0_CONFIG", none, .int C0_CONFIG⟩,
    ⟨"C0_WATCHLO", none, .int C0_WATCHLO⟩,
    ⟨"SR_CU1", none, .int SR_CU1⟩,
    ⟨"SR_FR", none, .int SR_FR⟩,
    ⟨"SR_BEV", none, .int SR_BEV⟩,
    ⟨"SR_PE", none, .int SR_PE⟩,
    ⟨"TLBWI", none, .insns TLBWI⟩ ]

/-- Whether a defined name starts with the given characters. -/
def startsWith (pre : String) (d : Define) : Bool :=
  pre.toList.isPrefixOf d.name.toList

/-- The name and integer value of a definition whose replacement is an
integer literal. -/
def intEntry (d : Define) : Option (String × Nat) :=
  match d.body with
  | .int v => some (d.name, v)
  | .insns _ => none

/-- The `C0_*` definitions of the header, in order. -/
def c0Defines : List Define := header.filter (startsWith "C0_")

/-- The `SR_*` definitions of the header, in order. -/
def srDefines : List Define := header.filter (startsWith "SR_")

/-- The coprocessor-0 register indices the header declares, in order. -/
def c0Indices : List Nat := (c0Defines.filterMap intEntry).map Prod.snd

/-- The Status Register flags the header declares, in order. -/
def srFlags : List Nat := (srDefines.filterMap intEntry).map Prod.snd

/-- The replacement the header gives a name: that of its first definition. -/
def lookup (name : String) : Option Define :=
  header.find? (fun d => d.name == name)

/-- The Status Register flags as a set. -/
def SR_FLAGS : Finset Nat := srFlags.toFinset

/-- Bitwise OR of the values of a set, the way flags are combined when a
register value is composed. -/
def orAll (S : Finset Nat) : Nat := S.fold (· ||| ·) 0 id

/-- The positions, least first, of the bits set in a 32-bit value. -/
def setBits (v : Nat) : List Nat := (List.range 32).filter v.testBit

/-- Bits `hi..lo` of a machine word, as a number. -/
def bitField (w hi lo : Nat) : Nat := (w >>> lo) % 2 ^ (hi + 1 - lo)

/-- The raw machine words an instruction sequence emits through `WORD`. -/
def rawWords (is : List Instr) : List Nat :=
  is.filterMap fun i =>
    match i with
    | .WORD w => some w
    | .NOOP => none

/-! ## Including the header -/

/-- The symbol environment of a translation unit: the definitions in force,
oldest first. -/
abbrev Env := List Define

/-- The error of a conflicting redefinition. -/
inductive DefineError where
  | redefined (name : String) : DefineError
  deriving DecidableEq, Repr

/-- Modelled from the spec: the processing of one `#define` line, which the
header itself does not contain. A name not yet defined is added; a name
already defined is accepted when the new replacement equals the existing
one, and is an error exactly when it differs. -/
def addDefine (env : Env) (d : Define) : Except DefineError Env :=
  match env.find? (fun e => e.name == d.name) with
  | none => .ok (env ++ [d])
  | some e => if e.body = d.body then .ok env else .error (.redefined d.name)

/-- Modelled from the spec: inclusion of a list of `#define` lines, which the
header itself does not contain: each line is processed in order, and the
first error stops the inclusion. -/
def includeDefs (env : Env) : List Define → Except DefineError Env
  | [] => .ok env
  | d :: ds =>
    match addDefine env d with
    | .ok env' => includeDefs env' ds
    | .error err => .error err

/-- Modelled from the spec: one inclusion of `asm_mips64.h`. -/
def includeHeader (env : Env) : Except DefineError Env := includeDefs env header

/-! ## Lemmas on inclusion -/

/-- A definition is settled in an environment when the environment already
gives its name the same replacement. -/
def Settled (env : Env) (d : Define) : Prop :=
  ∃ e, env.find? (fun e => e.name == d.name) = some e ∧ e.body = d.body

theorem addDefine_of_settled {env : Env} {d : Define} (h : Settled env d) :
    addDefine env d = .ok env := by
  obtain ⟨e, hfind, hbody⟩ := h
  simp [addDefine, hfind, hbody]

theorem settled_append {env : Env} {d : Define} (h : Settled env d) (more : List Define) :
    Settled (env ++ more) d := by
  obtain ⟨e, hfind, hbody⟩ := h
  exact ⟨e, by simp [List.find?_append, hfind], hbody⟩

theorem addDefine_settles {env env' : Env} {d : Define}
    (h : addDefine env d = .ok env') :
    Settled env' d ∧ ∀ x, Settled env x → Settled env' x := by
  unfold addDefine at h
  split at h
  next hnone =>
    injection h with h
    subst h
    refine ⟨⟨d, ?_, rfl⟩, fun x hx => settled_append hx _⟩
    simp [List.find?_append, hnone]
  next e hsome =>
    split at h
    next hbody =>
      injection h with h
      subst h
      exact ⟨⟨e, hsome, hbody⟩, fun _ hx => hx⟩
    next => cases h

theorem includeDefs_settles {ds : List Define} :
    ∀ {env env' : Env}, includeDefs env ds = .ok env' →
      (∀ d ∈ ds, Settled env' d) ∧ ∀ x, Settled env x → Settled env' x := by
  induction ds with
  | nil =>
    intro env env' h
    injection h with h
    subst h
    exact ⟨by simp, fun _ hx => hx⟩
  | cons d ds ih =>
    intro env env' h
    unfold includeDefs at h
    split at h
    next mid hmid =>
      obtain ⟨hd, hkeep⟩ := addDefine_settles hmid
      obtain ⟨hds, hkeep'⟩ := ih h
      refine ⟨?_, fun x hx => hkeep' x (hkeep x hx)⟩
      intro x hx
      rcases List.mem_cons.mp hx with rfl | hx
      · exact hkeep' _ hd
      · exact hds x hx
    next => cases h

theorem includeDefs_of_settled {ds : List Define} {env : Env}
    (h : ∀ d ∈ ds, Settled env d) : includeDefs env ds = .ok env := by
  induction ds with
  | nil => rfl
  | cons d ds ih =>
    unfold includeDefs
    rw [addDefine_of_settled (h d (List.mem_cons_self _ _))]
    exact ih fun x hx => h x (List.mem_cons_of_mem _ hx)

/-- Including a list of definitions a second time, right after an inclusion
that succeeded, succeeds and leaves the environment as it is. -/
theorem includeDefs_idem {ds : List Define} {env env' : Env}
    (h : includeDefs env ds = .ok env') : includeDefs env' ds = .ok env' :=
  includeDefs_of_settled (includeDefs_settles h).1

/-! ## The constant table -/

/-- C1: each of the 18 named constants has the value of the table
(`C0_INDEX = 0`, ..., `C0_WATCHLO = 18`, `SR_CU1 = 0x20000000 = 536870912`,
`SR_FR = 0x04000000 = 67108864`, `SR_BEV = 0x00400000 = 4194304`,
`SR_PE = 0x00100000 = 1048576`), and the definitions of the header whose name
starts with `C0_` or `SR_` are exactly these 18, each an object-like
definition with that integer as replacement. -/
theorem C1_constant_table :
    (C0_INDEX = 0 ∧ C0_ENTRYLO0 = 2 ∧ C0_ENTRYLO1 = 3 ∧ C0_PAGEMASK = 5 ∧
      C0_BADVADDR = 8 ∧ C0_COUNT = 9 ∧ C0_ENTRYHI = 10 ∧ C0_COMPARE = 11 ∧
      C0_SR = 12 ∧ C0_CAUSE = 13 ∧ C0_EPC = 14 ∧ C0_PRID = 15 ∧
      C0_CONFIG = 16 ∧ C0_WATCHLO = 18) ∧
    (SR_CU1 = 0x20000000 ∧ SR_CU1 = 536870912 ∧ SR_FR = 0x04000000 ∧ SR_FR = 67108864 ∧
      SR_BEV = 0x00400000 ∧ SR_BEV = 4194304 ∧ SR_PE = 0x00100000 ∧ SR_PE = 1048576) ∧
    header.filter (fun d => startsWith "C0_" d || startsWith "SR_" d) =
      [ ⟨"C0_INDEX", none, .int 0⟩, ⟨"C0_ENTRYLO0", none, .int 2⟩,
        ⟨"C0_ENTRYLO1", none, .int 3⟩, ⟨"C0_PAGEMASK", none, .int 5⟩,
        ⟨"C0_BADVADDR", none, .int 8⟩, ⟨"C0_COUNT", none, .int 9⟩,
        ⟨"C0_ENTRYHI", none, .int 10⟩, ⟨"C0_COMPARE", none, .int 11⟩,
        ⟨"C0_SR", none, .int 12⟩, ⟨"C0_CAUSE", none, .int 13⟩,
        ⟨"C0_EPC", none, .int 14⟩, ⟨"C0_PRID", none, .int 15⟩,
        ⟨"C0_CONFIG", none, .int 16⟩, ⟨"C0_WATCHLO", none, .int 18⟩,
        ⟨"SR_CU1", none, .int 536870912⟩, ⟨"SR_FR", none, .int 67108864⟩,
        ⟨"SR_BEV", none, .int 4194304⟩, ⟨"SR_PE", none, .int 1048576⟩ ] ∧
    (header.filter (fun d => startsWith "C0_" d || startsWith "SR_" d)).length = 18 := by
  refine ⟨by decide, by decide, by decide, by decide⟩

/-- C2: the header gives `TLBWI` one definition, without parameters, whose
replacement is the sequence of exactly two statements: `NOOP` first, then
`WORD $0x42000002`. -/
theorem C2_tlbwi_expansion :
    lookup "TLBWI" = some ⟨"TLBWI", none, .insns [Instr.NOOP, Instr.WORD 0x42000002]⟩ ∧
    (header.filter (fun d => d.name == "TLBWI")).length = 1 ∧
    TLBWI = [Instr.NOOP, Instr.WORD 0x42000002] ∧
    TLBWI.length = 2 ∧
    TLBWI.head? = some Instr.NOOP ∧
    TLBWI.getLast? = some (Instr.WORD 0x42000002) := by
  refine ⟨by decide, by decide, by decide, by decide, by decide, by decide⟩

/-- C3: the four Status Register flags `SR_CU1`, `SR_FR`, `SR_BEV`, `SR_PE`
are all non-zero, pairwise distinct, and the bitwise AND of any two
different flags is zero. -/
theorem C3_sr_flags_disjoint :
    srFlags = [SR_CU1, SR_FR, SR_BEV, SR_PE] ∧
    (∀ f ∈ srFlags, f ≠ 0) ∧
    srFlags.Nodup ∧
    srFlags.Pairwise (fun a b => a ≠ b ∧ a &&& b = 0 ∧ b &&& a = 0) ∧
    (∀ a ∈ srFlags, ∀ b ∈ srFlags, a ≠ b → a &&& b = 0) := by
  refine ⟨by decide, by decide, by decide, by decide, by decide⟩

/-- C4: each of the 14 coprocessor-0 register indices lies in `0..31`, so it
fits the 5-bit register field. -/
theorem C4_c0_index_range :
    c0Indices = [C0_INDEX, C0_ENTRYLO0, C0_ENTRYLO1, C0_PAGEMASK, C0_BADVADDR, C0_COUNT,
      C0_ENTRYHI, C0_COMPARE, C0_SR, C0_CAUSE, C0_EPC, C0_PRID, C0_CONFIG, C0_WATCHLO] ∧
    c0Indices.length = 14 ∧
    (∀ i ∈ c0Indices, 0 ≤ i ∧ i ≤ 31 ∧ i < 2 ^ 5) := by
  refine ⟨by decide, by decide, by decide⟩

/-- C5: the one machine word `TLBWI` emits is `0x42000002`; as a 32-bit word
its opcode field (bits 31..26) is `0b010000`, bit 25 is 1, bits 24..6 are
zero and its function field (bits 5..0) is `0b000010`, equivalently the word
is `(0x10 <<< 26) ||| (1 <<< 25) ||| 0x02`. -/
theorem C5_tlbwi_word_fields :
    rawWords TLBWI = [0x42000002] ∧
    ∀ w ∈ rawWords TLBWI,
      w < 2 ^ 32 ∧
      bitField w 31 26 = 0b010000 ∧
      bitField w 25 25 = 1 ∧
      bitField w 24 6 = 0 ∧
      bitField w 5 0 = 0b000010 ∧
      w = (0x10 <<< 26) ||| (1 <<< 25) ||| 0x02 := by
  refine ⟨by decide, by decide⟩

/-- C6: including the header twice is idempotent. No name is defined twice
in the header; the first inclusion into the empty environment succeeds and
yields the definitions of the header; the second inclusion succeeds too and
yields the same environment; and the same holds from any environment into
which a first inclusion succeeded. -/
theorem C6_include_twice_idempotent :
    (header.map Define.name).Nodup ∧
    includeHeader [] = .ok header ∧
    includeHeader header = .ok header ∧
    ((includeHeader [] >>= includeHeader) = includeHeader []) ∧
    (∀ env env' : Env, includeHeader env = .ok env' → includeHeader env' = .ok env') := by
  have h1 : includeHeader [] = .ok header := rfl
  have h2 : includeHeader header = .ok header := includeDefs_idem h1
  refine ⟨by decide, h1, h2, ?_, fun _ _ h => includeDefs_idem h⟩
  rw [h1]
  exact h2

/-- C7: each Status Register flag has exactly one bit set, `SR_CU1 = 2^29`,
`SR_FR = 2^26`, `SR_BEV = 2^22`, `SR_PE = 2^20`, and the four bit positions
are pairwise different. -/
theorem C7_sr_flags_single_bit :
    SR_CU1 = 2 ^ 29 ∧ SR_FR = 2 ^ 26 ∧ SR_BEV = 2 ^ 22 ∧ SR_PE = 2 ^ 20 ∧
    setBits SR_CU1 = [29] ∧ setBits SR_FR = [26] ∧ setBits SR_BEV = [22] ∧
    setBits SR_PE = [20] ∧
    (∀ f ∈ srFlags, ∃ k, k < 32 ∧ f = 2 ^ k ∧ setBits f = [k]) ∧
    (srFlags.flatMap setBits).Nodup := by
  refine ⟨by decide, by decide, by decide, by decide, by decide, by decide, by decide,
    by decide, ?_, by decide⟩
  have hflags : srFlags = [SR_CU1, SR_FR, SR_BEV, SR_PE] := by decide
  rw [hflags]
  intro f hf
  simp only [List.mem_cons, List.mem_singleton, List.not_mem_nil, or_false] at hf
  rcases hf with rfl | rfl | rfl | rfl
  · exact ⟨29, by decide, by decide, by decide⟩
  · exact ⟨26, by decide, by decide, by decide⟩
  · exact ⟨22, by decide, by decide, by decide⟩
  · exact ⟨20, by decide, by decide, by decide⟩

/-- Every subset of the flags is one of the 16 members of the power set, on
which a property can be checked by evaluation. -/
theorem forall_subset_flags {P : Finset Nat → Prop}
    (h : ∀ S ∈ SR_FLAGS.powerset, P S) (S : Finset Nat) (hS : S ⊆ SR_FLAGS) : P S :=
  h S (Finset.mem_powerset.mpr hS)

/-- C8: combining Status Register flags by bitwise OR is lossless. For
subsets `S`, `T` of the four flags, the OR of `S` equals the sum of `S`, a
flag is in `S` exactly when the AND of the OR of `S` with it is non-zero,
and equal ORs come only from equal subsets; the 16 subsets give 16 distinct
values, and the full set gives `0x24500000`. -/
theorem C8_or_lossless (S T : Finset Nat) (hS : S ⊆ SR_FLAGS) (hT : T ⊆ SR_FLAGS) :
    orAll S = ∑ f ∈ S, f ∧
    (∀ f ∈ SR_FLAGS, (orAll S &&& f ≠ 0 ↔ f ∈ S)) ∧
    (S ≠ T → orAll S ≠ orAll T) ∧
    SR_FLAGS = {SR_CU1, SR_FR, SR_BEV, SR_PE} ∧
    SR_FLAGS.powerset.card = 16 ∧
    (SR_FLAGS.powerset.image orAll).card = 16 ∧
    orAll SR_FLAGS = 0x24500000 := by
  refine ⟨?_, ?_, ?_, by decide, by decide, by decide, by decide⟩
  · exact forall_subset_flags (P := fun S => orAll S = ∑ f ∈ S, f) (by decide) S hS
  · exact forall_subset_flags (P := fun S => ∀ f ∈ SR_FLAGS, (orAll S &&& f ≠ 0 ↔ f ∈ S))
      (by decide) S hS
  · have hinj : ∀ A ∈ SR_FLAGS.powerset, ∀ B ∈ SR_FLAGS.powerset,
        A ≠ B → orAll A ≠ orAll B := by decide
    exact hinj S (Finset.mem_powerset.mpr hS) T (Finset.mem_powerset.mpr hT)

/-- C8 at `S = {SR_CU1, SR_PE}` and `T = {SR_FR}`. -/
theorem C8_or_lossless_witness :
    ({SR_CU1, SR_PE} : Finset Nat) ⊆ SR_FLAGS ∧ ({SR_FR} : Finset Nat) ⊆ SR_FLAGS ∧
    orAll {SR_CU1, SR_PE} = ∑ f ∈ ({SR_CU1, SR_PE} : Finset Nat), f ∧
    (∀ f ∈ SR_FLAGS, (orAll {SR_CU1, SR_PE} &&& f ≠ 0 ↔ f ∈ ({SR_CU1, SR_PE} : Finset Nat))) ∧
    (({SR_CU1, SR_PE} : Finset Nat) ≠ {SR_FR} → orAll {SR_CU1, SR_PE} ≠ orAll {SR_FR}) :=
  have h := C8_or_lossless {SR_CU1, SR_PE} {SR_FR} (by decide) (by decide)
  ⟨by decide, by decide, h.1, h.2.1, h.2.2.1⟩

/-- C9: the 14 coprocessor-0 register indices are strictly increasing in the
order the header declares them, hence pairwise distinct, and no two `C0_*`
names have the same index. -/
theorem C9_c0_indices_injective :
    c0Indices = [0, 2, 3, 5, 8, 9, 10, 11, 12, 13, 14, 15, 16, 18] ∧
    c0Defines.map Define.name =
      ["C0_INDEX", "C0_ENTRYLO0", "C0_ENTRYLO1", "C0_PAGEMASK", "C0_BADVADDR", "C0_COUNT",
        "C0_ENTRYHI", "C0_COMPARE", "C0_SR", "C0_CAUSE", "C0_EPC", "C0_PRID", "C0_CONFIG",
        "C0_WATCHLO"] ∧
    c0Indices.Pairwise (· < ·) ∧
    c0Indices.Nodup ∧
    (∀ d ∈ c0Defines, ∀ e ∈ c0Defines, d.body = e.body → d.name = e.name) := by
  refine ⟨by decide, by decide, by decide, by decide, by decide⟩

/-- C10: for every subset `S` of the four flags, the OR of `S` is below
`2^31`, hence below `2^32`, and its low 16 bits are zero: none of bits
0..15 is set. -/
theorem C10_or_fits_and_low_clear (S : Finset Nat) (hS : S ⊆ SR_FLAGS) :
    orAll S < 2 ^ 32 ∧ orAll S < 2 ^ 31 ∧ orAll S &&& 0xFFFF = 0 ∧
    (∀ i < 16, (orAll S).testBit i = false) :=
  forall_subset_flags
    (P := fun S => orAll S < 2 ^ 32 ∧ orAll S < 2 ^ 31 ∧ orAll S &&& 0xFFFF = 0 ∧
      (∀ i < 16, (orAll S).testBit i = false))
    (by decide) S hS

/-- C10 at `S = {SR_CU1, SR_FR, SR_BEV, SR_PE}`, the largest combination. -/
theorem C10_or_fits_and_low_clear_witness :
    ({SR_CU1, SR_FR, SR_BEV, SR_PE} : Finset Nat) ⊆ SR_FLAGS ∧
    orAll {SR_CU1, SR_FR, SR_BEV, SR_PE} < 2 ^ 32 ∧
    orAll {SR_CU1, SR_FR, SR_BEV, SR_PE} < 2 ^ 31 ∧
    orAll {SR_CU1, SR_FR, SR_BEV, SR_PE} &&& 0xFFFF = 0 ∧
    (∀ i < 16, (orAll {SR_CU1, SR_FR, SR_BEV, SR_PE}).testBit i = false) :=
  ⟨by decide, C10_or_fits_and_low_clear {SR_CU1, SR_FR, SR_BEV, SR_PE} (by decide)⟩

end AsmMips64
